import Mathlib

/-!
Verification development for the `image_converter` repository
(`src/image_converter.py`).

The Python source is shallowly embedded below.  Paths, messages and
filter strings are Lean `String`s; the filesystem and the codec library
(PIL) are modelled as explicit environments of functions, since their
behaviour is external to the repository.  Python `str.lower` and
`str.endswith` are modelled on the character lists underlying strings.
-/

namespace ImageConv

/-- Python `s.lower()` restricted to per-character lowercasing
(`Char.toLower`); the extension suffixes compared against are ASCII, for
which this agrees with Python. -/
def pyLower (s : String) : String :=
  String.mk (s.data.map Char.toLower)

/-- Python `s.endswith(t)`: `t` is a suffix of `s`. -/
def pyEndsWith (s t : String) : Bool :=
  t.data.isSuffixOf s.data

/-- Python `s.endswith((t1, ..., tn))`: `s` ends with one of the given
suffixes. -/
def endsWithAny (s : String) (sufs : List String) : Bool :=
  sufs.any (fun t => pyEndsWith s t)

/-- Embedding of `Config.ICO_SIZES`. -/
def ICO_SIZES : List (Nat × Nat) :=
  [(16, 16), (24, 24), (32, 32), (48, 48), (64, 64), (128, 128), (256, 256)]

/-- Embedding of `Config.VALID_IMAGE_FORMATS`. -/
def VALID_IMAGE_FORMATS : List String :=
  [".png", ".jpg", ".jpeg", ".gif", ".bmp", ".tiff", ".webp", ".ico"]

/-- Embedding of `Config.MAX_FILE_SIZE = 100 * 1024 * 1024`. -/
def MAX_FILE_SIZE : Nat := 100 * 1024 * 1024

/-- Round `n / 2^20` to the nearest integer, ties to even.  `n` is a
byte count times 10; since `n / 2^20` is a dyadic rational, this is
exactly how Python's `format(x, '.1f')` rounds the tenths digit of
`x = bytes / (1024*1024)`. -/
def pyRoundTenths (n : Nat) : Nat :=
  let f := n / 1048576
  let r := n % 1048576
  if 524288 < r then f + 1
  else if r < 524288 then f
  else if f % 2 = 0 then f else f + 1

/-- Python `f"{size_bytes / (1024 * 1024):.1f}"`. -/
def fmtMB1 (size_bytes : Nat) : String :=
  let t := pyRoundTenths (size_bytes * 10)
  toString (t / 10) ++ "." ++ toString (t % 10)

/-- Message of the existence check failing. -/
def notFoundMsg (file_path : String) : String :=
  "Файл не найден: " ++ file_path

/-- Message of the extension allow-list check failing. -/
def unsupportedMsg : String :=
  "Недопустимый формат. Поддерживаемые: " ++ String.intercalate ", " VALID_IMAGE_FORMATS

/-- Message of the size-ceiling check failing (the `:.0f` rendering of
the 100 MiB ceiling is the constant `"100"`). -/
def tooLargeMsg (file_size : Nat) : String :=
  "Файл слишком большой: " ++ fmtMB1 file_size ++ " МБ (макс: 100 МБ)"

/-- Message of the decode-verify check failing, wrapping the exception
text. -/
def corruptMsg (e : String) : String :=
  "Повреждённый файл: " ++ e

/-- Success message of `validate_file`. -/
def validateOkMsg : String := "OK"

/-- Environment for `validate_file`: the filesystem calls
(`os.path.exists`, `os.path.getsize`) and the codec library's
open-and-verify (`Image.open` + `img.verify`), the latter returning the
exception message on failure. -/
structure FsEnv where
  pathExists : String → Bool
  getsize : String → Nat
  verifyImage : String → Except String Unit

/-- Embedding of `ImageConverter.validate_file` (src/image_converter.py:91-110). -/
def validate_file (env : FsEnv) (file_path : String) : Bool × String :=
  if env.pathExists file_path = false then
    (false, notFoundMsg file_path)
  else if endsWithAny (pyLower file_path) VALID_IMAGE_FORMATS = false then
    (false, unsupportedMsg)
  else if MAX_FILE_SIZE < env.getsize file_path then
    (false, tooLargeMsg (env.getsize file_path))
  else
    match env.verifyImage file_path with
    | Except.ok _ => (true, validateOkMsg)
    | Except.error e => (false, corruptMsg e)

/-- Abstract PIL image as seen by `convert`: its colour `mode` and its
`size` (width, height). -/
structure PILImage where
  mode : String
  size : Nat × Nat
deriving DecidableEq, Repr

/-- The save request `convert` hands to the codec library, recording
exactly the arguments of the three `save` call shapes in
src/image_converter.py:119-126.  `flattenOnWhite` records the JPEG
branch: a fresh background image of the given mode, size and fill
colour, onto which the source is pasted (with its alpha band as mask
exactly when the source mode is RGBA), saved with the given quality. -/
inductive SaveSpec where
  | flattenOnWhite (src : PILImage) (bgMode : String) (bgSize : Nat × Nat)
      (bgColor : Nat × Nat × Nat) (maskIsAlpha : Bool) (quality : Nat)
  | icoSave (src : PILImage) (fmt : String) (sizes : List (Nat × Nat))
  | plainSave (src : PILImage)
deriving DecidableEq, Repr

/-- The branch selection and transform of `ImageConverter.convert`
(src/image_converter.py:119-126): which save request is issued for a
given opened image and output path. -/
def chooseSave (img : PILImage) (output_path : String) : SaveSpec :=
  if endsWithAny (pyLower output_path) [".jpg", ".jpeg"] = true
      ∧ ["RGBA", "LA", "P"].contains img.mode = true then
    SaveSpec.flattenOnWhite img "RGB" img.size (255, 255, 255)
      (img.mode == "RGBA") 95
  else if pyEndsWith (pyLower output_path) ".ico" = true then
    SaveSpec.icoSave img "ICO" ICO_SIZES
  else
    SaveSpec.plainSave img

/-- Environment for `convert`: `Image.open` on the input path, and the
codec library executing a save request on the output path; either may
fail with an exception message. -/
structure ConvEnv where
  openImage : String → Except String PILImage
  saveImage : String → SaveSpec → Except String Unit

/-- Failure message of `convert`, wrapping the exception text. -/
def convErrMsg (e : String) : String :=
  "Ошибка при конвертации: " ++ e

/-- Success message of `convert`. -/
def convertOkMsg : String := "Изображение успешно конвертировано!"

/-- Embedding of `ImageConverter.convert` (src/image_converter.py:112-132): open,
transform/save, and the surrounding `try/except` that turns any
exception into a failure outcome. -/
def convert (env : ConvEnv) (input_path output_path : String) : Bool × String :=
  match env.openImage input_path with
  | Except.error e => (false, convErrMsg e)
  | Except.ok img =>
    match env.saveImage output_path (chooseSave img output_path) with
    | Except.error e => (false, convErrMsg e)
    | Except.ok _ => (true, convertOkMsg)

/-- A signal emitted by `ConversionWorker` to the presentation layer. -/
inductive Signal where
  | progress (n : Nat)
  | status (s : String)
  | finished (ok : Bool) (msg : String)
deriving DecidableEq, Repr

/-- Embedding of `ConversionWorker.run` (src/image_converter.py:181-204) as the
sequence of signals it emits. -/
def workerRun (venv : FsEnv) (cenv : ConvEnv)
    (input_path output_path : String) : List Signal :=
  [Signal.status "⚡ Начинаем конвертацию...", Signal.progress 20] ++
  (let v := validate_file venv input_path
   if v.1 = false then
     [Signal.progress 0, Signal.status "❌ Ошибка валидации",
      Signal.finished false v.2]
   else
     [Signal.progress 40] ++
     (let c := convert cenv input_path output_path
      [Signal.progress 100] ++
      (if c.1 = true then [Signal.status "✅ Конвертация завершена!"]
       else [Signal.status "❌ Ошибка конвертации"]) ++
      [Signal.finished c.1 c.2]))

/-- The progress percentages among a list of signals, in emission
order. -/
def progressSignals (sigs : List Signal) : List Nat :=
  sigs.filterMap (fun s => match s with
    | Signal.progress n => some n
    | _ => none)

/-- The parsed command line: two optional positionals and the `--gui`
flag (src/image_converter.py:611-613). -/
structure Args where
  input_file : Option String
  output_file : Option String
  gui : Bool

/-- Python truthiness of an optional string argument (`None` and the
empty string are falsy). -/
def truthy : Option String → Bool
  | none => false
  | some s => !(s == "")

/-- What `main` does after parsing, abstracting the side effects:
launch the GUI, print the argparse help, or run a CLI conversion
printing `printed` and exiting with `exitCode`. -/
inductive MainAction where
  | launchGui
  | printHelp
  | cliResult (printed : String) (exitCode : Nat)
deriving DecidableEq, Repr

/-- The dispatch of `main` (src/image_converter.py:606-646). -/
def runMain (cenv : ConvEnv) (a : Args) : MainAction :=
  if a.gui = true ∨ (truthy a.input_file = false ∧ truthy a.output_file = false) then
    MainAction.launchGui
  else
    match a.input_file, a.output_file with
    | some i, some o =>
      if i == "" ∨ o == "" then MainAction.printHelp
      else
        let r := convert cenv i o
        if r.1 = true then MainAction.cliResult ("✅ " ++ r.2) 0
        else MainAction.cliResult ("❌ " ++ r.2) 1
    | _, _ => MainAction.printHelp

/-- The lazy tail of the regex `\(\*\.(.*?)\)` after the literal
`(*.` has matched: scan for the first `)`, collecting the capture;
`.` does not match a newline, so a newline before the `)` fails this
start position. -/
def findClose : List Char → Option (List Char)
  | [] => none
  | c :: rest =>
    if c = ')' then some []
    else if c = '\n' then none
    else (findClose rest).map (fun cs => c :: cs)

/-- One attempted match of `\(\*\.(.*?)\)` at the head of the list. -/
def tryMatchAt : List Char → Option (List Char)
  | c1 :: c2 :: c3 :: rest =>
    if c1 = '(' ∧ c2 = '*' ∧ c3 = '.' then findClose rest else none
  | _ => none

/-- Embedding of `re.search` of `\(\*\.(.*?)\)`: leftmost start position wins, and
at that position the lazy capture is minimal. -/
def searchExt : List Char → Option (List Char)
  | [] => none
  | c :: rest =>
    match tryMatchAt (c :: rest) with
    | some cap => some cap
    | none => searchExt rest

/-- Embedding of `ImageConverter.extract_extension_from_filter`
(src/image_converter.py:162-166): `f".{match.group(1)}"` on a match,
`None` otherwise. -/
def extract_extension_from_filter (filter_text : String) : Option String :=
  match searchExt filter_text.data with
  | some cap => some (String.mk ('.' :: cap))
  | none => none

/-- The spec-side notion of a filter string containing a parenthesized
token of the shape `(*.ext)`: some decomposition around a literal
`(*.`, a capture free of `)` and of newlines, and a closing `)`. -/
def HasExtToken (l : List Char) : Prop :=
  ∃ a ext b, l = a ++ '(' :: '*' :: '.' :: (ext ++ ')' :: b)
    ∧ ')' ∉ ext ∧ '\n' ∉ ext

/-- Filesystem environment where every path exists, is small and
verifies. -/
def fsEnvAllOk : FsEnv :=
  ⟨fun _ => true, fun _ => 1024, fun _ => Except.ok ()⟩

/-- Filesystem environment where no path exists. -/
def fsEnvMissing : FsEnv :=
  ⟨fun _ => false, fun _ => 0, fun _ => Except.ok ()⟩

/-- Filesystem environment for the size boundary: `big.png` is one byte
over the ceiling, every other path is exactly at it. -/
def fsEnvBoundary : FsEnv :=
  ⟨fun _ => true,
   fun p => if p == "big.png" then MAX_FILE_SIZE + 1 else MAX_FILE_SIZE,
   fun _ => Except.ok ()⟩

/-- C1: `validate_file` performs its four checks in order —
existence, extension allow-list (case-insensitive), 100 MiB size
ceiling, codec decode-verify — short-circuiting on the first failure
with the corresponding message (the too-large message embedding the
size in MiB, the corrupt message embedding the decode error), and
returns success when all four pass. -/
theorem validate_file_four_checks (env : FsEnv) (p : String) :
    (env.pathExists p = false →
      validate_file env p = (false, notFoundMsg p))
    ∧ (env.pathExists p = true →
        endsWithAny (pyLower p) VALID_IMAGE_FORMATS = false →
        validate_file env p = (false, unsupportedMsg))
    ∧ (env.pathExists p = true →
        endsWithAny (pyLower p) VALID_IMAGE_FORMATS = true →
        MAX_FILE_SIZE < env.getsize p →
        validate_file env p = (false, tooLargeMsg (env.getsize p))
          ∧ (fmtMB1 (env.getsize p)).data <:+: (tooLargeMsg (env.getsize p)).data)
    ∧ (env.pathExists p = true →
        endsWithAny (pyLower p) VALID_IMAGE_FORMATS = true →
        env.getsize p ≤ MAX_FILE_SIZE →
        ∀ e, env.verifyImage p = Except.error e →
          validate_file env p = (false, corruptMsg e)
            ∧ e.data <:+ (corruptMsg e).data)
    ∧ (env.pathExists p = true →
        endsWithAny (pyLower p) VALID_IMAGE_FORMATS = true →
        env.getsize p ≤ MAX_FILE_SIZE →
        env.verifyImage p = Except.ok () →
        validate_file env p = (true, validateOkMsg)) := by
  refine ⟨fun h1 => ?_, fun h1 h2 => ?_, fun h1 h2 h3 => ?_,
    fun h1 h2 h3 e he => ?_, fun h1 h2 h3 hv => ?_⟩
  · simp [validate_file, h1]
  · simp [validate_file, h1, h2]
  · refine ⟨by simp [validate_file, h1, h2, h3], ?_⟩
    exact ⟨"Файл слишком большой: ".data, " МБ (макс: 100 МБ)".data, by
      simp [tooLargeMsg]⟩
  · refine ⟨?_, ?_⟩
    · simp [validate_file, h1, h2, Nat.not_lt.mpr h3, he]
    · exact List.suffix_append "Повреждённый файл: ".data e.data
  · simp [validate_file, h1, h2, Nat.not_lt.mpr h3, hv]

/-- Witness for C1: a concrete run through all four checks. -/
theorem validate_file_four_checks_witness :
    validate_file fsEnvBoundary "photo.png" = (true, validateOkMsg) :=
  (validate_file_four_checks fsEnvBoundary "photo.png").2.2.2.2
    rfl (by decide) (by decide) rfl

/-- C5: with the input existing and its extension allow-listed, a file
of exactly 100 MiB passes the size check (and validation succeeds when
it decodes), while a file of 100 MiB + 1 byte fails with the too-large
message. -/
theorem validate_file_size_boundary (env : FsEnv) (p : String)
    (hex : env.pathExists p = true)
    (hext : endsWithAny (pyLower p) VALID_IMAGE_FORMATS = true) :
    (env.getsize p = MAX_FILE_SIZE → env.verifyImage p = Except.ok () →
      validate_file env p = (true, validateOkMsg))
    ∧ (env.getsize p = MAX_FILE_SIZE + 1 →
      validate_file env p = (false, tooLargeMsg (MAX_FILE_SIZE + 1))) := by
  constructor
  · intro hs hv
    simp [validate_file, hex, hext, hs, hv]
  · intro hs
    simp [validate_file, hex, hext, hs]

/-- Witness for C5: both boundary sides at concrete files. -/
theorem validate_file_size_boundary_witness :
    validate_file fsEnvBoundary "ok.png" = (true, validateOkMsg)
    ∧ validate_file fsEnvBoundary "big.png"
        = (false, tooLargeMsg (MAX_FILE_SIZE + 1)) :=
  ⟨(validate_file_size_boundary fsEnvBoundary "ok.png" rfl (by decide)).1
      (by decide) rfl,
   (validate_file_size_boundary fsEnvBoundary "big.png" rfl (by decide)).2
      (by decide)⟩

/-- C6: a path whose (lowercased) name ends with none of the
allow-listed extensions is rejected by `validate_file` under every
filesystem environment — whether or not the path exists. -/
theorem validate_file_rejects_bad_extension (env : FsEnv) (p : String)
    (h : endsWithAny (pyLower p) VALID_IMAGE_FORMATS = false) :
    (validate_file env p).1 = false := by
  cases hpe : env.pathExists p
  · simp [validate_file, hpe]
  · simp [validate_file, hpe, h]

/-- Witness for C6: a `.txt` path is rejected both when it exists and
when it does not. -/
theorem validate_file_rejects_bad_extension_witness :
    (validate_file fsEnvAllOk "doc.txt").1 = false
    ∧ (validate_file fsEnvMissing "doc.txt").1 = false :=
  ⟨validate_file_rejects_bad_extension fsEnvAllOk "doc.txt" (by decide),
   validate_file_rejects_bad_extension fsEnvMissing "doc.txt" (by decide)⟩

/-- A character list ending in `.ico` ends in neither `.jpg` nor
`.jpeg`. -/
theorem ico_suffix_not_jpeg {l : List Char} (h : ".ico".data <:+ l) :
    ¬ ".jpg".data <:+ l ∧ ¬ ".jpeg".data <:+ l := by
  constructor
  · intro hj
    rcases List.suffix_or_suffix_of_suffix h hj with h1 | h1
    · exact absurd h1 (by decide)
    · exact absurd h1 (by decide)
  · intro hj
    rcases List.suffix_or_suffix_of_suffix h hj with h1 | h1
    · exact absurd h1 (by decide)
    · exact absurd h1 (by decide)

/-- C2: when the output path's extension is `.jpg`/`.jpeg`
(case-insensitive) and the source mode is RGBA, LA or P, the save
request flattens the source onto a fresh opaque white RGB background of
the source's size (masking by the alpha band exactly for RGBA) and uses
quality 95. -/
theorem chooseSave_jpeg_flattens_on_white (img : PILImage) (out : String)
    (hext : pyEndsWith (pyLower out) ".jpg" = true
      ∨ pyEndsWith (pyLower out) ".jpeg" = true)
    (hmode : img.mode = "RGBA" ∨ img.mode = "LA" ∨ img.mode = "P") :
    chooseSave img out
      = SaveSpec.flattenOnWhite img "RGB" img.size (255, 255, 255)
          (img.mode == "RGBA") 95 := by
  have h1 : endsWithAny (pyLower out) [".jpg", ".jpeg"] = true := by
    rcases hext with h | h <;> simp [endsWithAny, h]
  have h2 : ["RGBA", "LA", "P"].contains img.mode = true := by
    rcases hmode with h | h | h <;> simp [h]
  rw [chooseSave, if_pos ⟨h1, h2⟩]

/-- Witness for C2: an RGBA source saved to an uppercase `.JPG` path. -/
theorem chooseSave_jpeg_flattens_on_white_witness :
    chooseSave ⟨"RGBA", (3, 4)⟩ "out.JPG"
      = SaveSpec.flattenOnWhite ⟨"RGBA", (3, 4)⟩ "RGB" (3, 4)
          (255, 255, 255) true 95 :=
  chooseSave_jpeg_flattens_on_white ⟨"RGBA", (3, 4)⟩ "out.JPG"
    (Or.inl (by decide)) (Or.inl rfl)

/-- C3: when the output path's extension is `.ico` (case-insensitive),
the save request asks the codec library for exactly the seven square
sizes 16, 24, 32, 48, 64, 128 and 256. -/
theorem chooseSave_ico_seven_sizes (img : PILImage) (out : String)
    (h : pyEndsWith (pyLower out) ".ico" = true) :
    chooseSave img out
      = SaveSpec.icoSave img "ICO"
          [(16, 16), (24, 24), (32, 32), (48, 48), (64, 64), (128, 128),
           (256, 256)] := by
  have hs : ".ico".data <:+ (pyLower out).data :=
    List.isSuffixOf_iff_suffix.mp h
  have hj := ico_suffix_not_jpeg hs
  have h1 : endsWithAny (pyLower out) [".jpg", ".jpeg"] = false := by
    simp only [endsWithAny, pyEndsWith, List.any_cons, List.any_nil,
      Bool.or_false, Bool.or_eq_false_iff]
    constructor
    · exact Bool.not_eq_true _ ▸ fun hb =>
        hj.1 (List.isSuffixOf_iff_suffix.mp hb)
    · exact Bool.not_eq_true _ ▸ fun hb =>
        hj.2 (List.isSuffixOf_iff_suffix.mp hb)
  simp [chooseSave, h1, h, ICO_SIZES]

/-- Witness for C3: an RGB source saved to an uppercase `.ICO` path. -/
theorem chooseSave_ico_seven_sizes_witness :
    chooseSave ⟨"RGB", (3, 4)⟩ "favicon.ICO"
      = SaveSpec.icoSave ⟨"RGB", (3, 4)⟩ "ICO"
          [(16, 16), (24, 24), (32, 32), (48, 48), (64, 64), (128, 128),
           (256, 256)] :=
  chooseSave_ico_seven_sizes ⟨"RGB", (3, 4)⟩ "favicon.ICO" (by decide)

/-- Conversion environment whose open call always raises. -/
def cenvOpenFail : ConvEnv :=
  ⟨fun _ => Except.error "boom", fun _ _ => Except.ok ()⟩

/-- Conversion environment where open and save always succeed. -/
def cenvAllOk : ConvEnv :=
  ⟨fun _ => Except.ok ⟨"RGB", (1, 1)⟩, fun _ _ => Except.ok ()⟩

/-- C4: every exception of the open/transform/save sequence is caught:
an open error or a save error yields a failure outcome whose message
contains the exception's message, and otherwise `convert` reports
success — in all cases it returns an outcome instead of propagating. -/
theorem convert_catches_exceptions (env : ConvEnv) (i o : String) :
    (∀ e, env.openImage i = Except.error e →
      convert env i o = (false, convErrMsg e)
        ∧ e.data <:+ (convErrMsg e).data)
    ∧ (∀ img e, env.openImage i = Except.ok img →
        env.saveImage o (chooseSave img o) = Except.error e →
        convert env i o = (false, convErrMsg e)
          ∧ e.data <:+ (convErrMsg e).data)
    ∧ (∀ img, env.openImage i = Except.ok img →
        env.saveImage o (chooseSave img o) = Except.ok () →
        convert env i o = (true, convertOkMsg)) := by
  refine ⟨fun e he => ⟨?_, ?_⟩, fun img e hi hs => ⟨?_, ?_⟩,
    fun img hi hs => ?_⟩
  · simp [convert, he]
  · exact List.suffix_append "Ошибка при конвертации: ".data e.data
  · simp [convert, hi, hs]
  · exact List.suffix_append "Ошибка при конвертации: ".data e.data
  · simp [convert, hi, hs]

/-- Witness for C4: a concrete failing open is reported as a failure
outcome containing the exception message. -/
theorem convert_catches_exceptions_witness :
    convert cenvOpenFail "a.png" "b.jpg" = (false, convErrMsg "boom")
      ∧ "boom".data <:+ (convErrMsg "boom").data :=
  (convert_catches_exceptions cenvOpenFail "a.png" "b.jpg").1 "boom" rfl

/-- C7 counterexample: on a worker run whose validation fails (input
path absent), the emitted progress values are `[20, 0]` — not the three
fixed milestones 20/40/100 claimed for every run. -/
theorem workerRun_progress_counterexample :
    progressSignals (workerRun fsEnvMissing cenvAllOk "in.png" "out.png")
        = [20, 0]
      ∧ [20, 0] ≠ ([20, 40, 100] : List Nat) :=
  ⟨rfl, by decide⟩

/-- C7 (amended): when validation succeeds the worker emits exactly the
progress milestones 20, 40, 100 in order (100 after the conversion
attempt returns, whether or not it succeeded); when validation fails it
emits 20 and then 0 instead. -/
theorem workerRun_progress_milestones (venv : FsEnv) (cenv : ConvEnv)
    (i o : String) :
    ((validate_file venv i).1 = true →
      progressSignals (workerRun venv cenv i o) = [20, 40, 100])
    ∧ ((validate_file venv i).1 = false →
      progressSignals (workerRun venv cenv i o) = [20, 0]) := by
  constructor
  · intro hv
    cases hc : (convert cenv i o).1 <;>
      simp [workerRun, progressSignals, hv, hc]
  · intro hv
    simp [workerRun, progressSignals, hv]

/-- Witness for C7 (amended): a run with passing validation emits
20/40/100, one with failing validation emits 20/0. -/
theorem workerRun_progress_milestones_witness :
    progressSignals (workerRun fsEnvAllOk cenvAllOk "a.png" "b.png")
        = [20, 40, 100]
      ∧ progressSignals (workerRun fsEnvMissing cenvAllOk "a.png" "b.png")
        = [20, 0] :=
  ⟨(workerRun_progress_milestones fsEnvAllOk cenvAllOk "a.png" "b.png").1
      (by decide),
   (workerRun_progress_milestones fsEnvMissing cenvAllOk "a.png" "b.png").2
      rfl⟩

/-- C8: `main`'s dispatch (with `--gui` taking precedence, as in the
source): `--gui` or both positionals missing launches the GUI; without
`--gui`, exactly one positional missing prints the usage help and
performs no conversion; without `--gui` and both positionals present,
it converts, printing a success line with exit status 0 or a failure
line with exit status 1. -/
theorem main_dispatch (cenv : ConvEnv) (a : Args) :
    ((a.gui = true
        ∨ (truthy a.input_file = false ∧ truthy a.output_file = false)) →
      runMain cenv a = MainAction.launchGui)
    ∧ (a.gui = false → truthy a.input_file ≠ truthy a.output_file →
      runMain cenv a = MainAction.printHelp)
    ∧ (∀ i o, a.gui = false → a.input_file = some i → a.output_file = some o →
        (i == "") = false → (o == "") = false →
        runMain cenv a =
          (if (convert cenv i o).1 = true
           then MainAction.cliResult ("✅ " ++ (convert cenv i o).2) 0
           else MainAction.cliResult ("❌ " ++ (convert cenv i o).2) 1)) := by
  refine ⟨fun h => ?_, fun hg hne => ?_, fun i o hg hi ho hib hob => ?_⟩
  · rw [runMain, if_pos h]
  · have hcond : ¬(a.gui = true
        ∨ (truthy a.input_file = false ∧ truthy a.output_file = false)) := by
      rintro (h | ⟨h1, h2⟩)
      · rw [hg] at h; cases h
      · rw [h1, h2] at hne; exact hne rfl
    rcases hif : a.input_file with _ | i <;>
      rcases hof : a.output_file with _ | o <;>
      rw [runMain, if_neg hcond, hif, hof]
    rw [hif, hof] at hne
    cases hbi : (i == "") <;> cases hbo : (o == "") <;>
      simp [truthy, hbi, hbo] at hne ⊢
  · have hcond : ¬(a.gui = true
        ∨ (truthy a.input_file = false ∧ truthy a.output_file = false)) := by
      rintro (h | ⟨h1, h2⟩)
      · rw [hg] at h; cases h
      · rw [hi] at h1; simp [truthy, hib] at h1
    rw [runMain, if_neg hcond, hi, ho]
    cases hc : (convert cenv i o).1 <;> simp [hib, hob, hc]

/-- Witness for C8: the three dispatch branches at concrete argument
vectors. -/
theorem main_dispatch_witness :
    runMain cenvAllOk ⟨none, none, false⟩ = MainAction.launchGui
    ∧ runMain cenvAllOk ⟨some "a.png", none, false⟩ = MainAction.printHelp
    ∧ runMain cenvAllOk ⟨some "a.png", some "b.png", false⟩
        = MainAction.cliResult ("✅ " ++ convertOkMsg) 0 :=
  ⟨(main_dispatch cenvAllOk ⟨none, none, false⟩).1 (Or.inr ⟨rfl, rfl⟩),
   (main_dispatch cenvAllOk ⟨some "a.png", none, false⟩).2.1 rfl (by decide),
   (main_dispatch cenvAllOk ⟨some "a.png", some "b.png", false⟩).2.2
      "a.png" "b.png" rfl rfl rfl (by decide) (by decide)⟩

/-- If the capture is free of `)` and newlines, the lazy tail scan
succeeds on `capture ++ ')' :: rest`. -/
theorem findClose_app_isSome : ∀ (ext b : List Char), ')' ∉ ext → '\n' ∉ ext →
    (findClose (ext ++ ')' :: b)).isSome = true := by
  intro ext
  induction ext with
  | nil => intro b _ _; simp [findClose]
  | cons c tl ih =>
    intro b hp hn
    rw [List.mem_cons] at hp hn
    push_neg at hp hn
    have hc1 : ¬ c = ')' := fun h => hp.1 h.symm
    have hc2 : ¬ c = '\n' := fun h => hn.1 h.symm
    rw [List.cons_append, findClose, if_neg hc1, if_neg hc2,
      Option.isSome_map']
    exact ih b hp.2 hn.2

/-- Inversion of the lazy tail scan: a successful scan splits its input
at the first `)` and the capture is free of `)` and newlines. -/
theorem findClose_sound : ∀ (r cap : List Char), findClose r = some cap →
    ∃ b, r = cap ++ ')' :: b ∧ ')' ∉ cap ∧ '\n' ∉ cap := by
  intro r
  induction r with
  | nil => intro cap h; simp [findClose] at h
  | cons c tl ih =>
    intro cap h
    by_cases hc : c = ')'
    · subst hc
      rw [findClose, if_pos rfl, Option.some.injEq] at h
      exact ⟨tl, by rw [← h]; rfl, by rw [← h]; exact List.not_mem_nil _,
        by rw [← h]; exact List.not_mem_nil _⟩
    · by_cases hn : c = '\n'
      · subst hn
        rw [findClose, if_neg hc, if_pos rfl] at h
        cases h
      · rw [findClose, if_neg hc, if_neg hn] at h
        rcases hfc : findClose tl with _ | cs
        · rw [hfc] at h; cases h
        · rw [hfc, Option.map_some', Option.some.injEq] at h
          rcases ih cs hfc with ⟨b, hb, hp, hnn⟩
          refine ⟨b, ?_, ?_, ?_⟩
          · rw [← h, hb]; rfl
          · rw [← h]; rw [List.mem_cons]; push_neg
            exact ⟨fun hh => hc hh.symm, hp⟩
          · rw [← h]; rw [List.mem_cons]; push_neg
            exact ⟨fun hh => hn hh.symm, hnn⟩

/-- Inversion of one attempted match: success means the input starts
with the literal `(*.` and the tail scan succeeds. -/
theorem tryMatchAt_sound (l cap : List Char) (h : tryMatchAt l = some cap) :
    ∃ rest, l = '(' :: '*' :: '.' :: rest ∧ findClose rest = some cap := by
  rcases l with _ | ⟨c1, _ | ⟨c2, _ | ⟨c3, rest⟩⟩⟩
  · simp [tryMatchAt] at h
  · simp [tryMatchAt] at h
  · simp [tryMatchAt] at h
  · dsimp only [tryMatchAt] at h
    split_ifs at h with hcond
    exact ⟨rest, by rw [hcond.1, hcond.2.1, hcond.2.2], h⟩

/-- Soundness of the regex search: a returned capture comes from an
actual `(*.capture)` token in the input. -/
theorem searchExt_sound : ∀ (l cap : List Char), searchExt l = some cap →
    ∃ a b, l = a ++ '(' :: '*' :: '.' :: (cap ++ ')' :: b)
      ∧ ')' ∉ cap ∧ '\n' ∉ cap := by
  intro l
  induction l with
  | nil => intro cap h; simp [searchExt] at h
  | cons c tl ih =>
    intro cap h
    rcases htm : tryMatchAt (c :: tl) with _ | cap'
    · rw [searchExt, htm] at h
      dsimp only at h
      rcases ih cap h with ⟨a, b, hl, hp, hn⟩
      exact ⟨c :: a, b, by rw [List.cons_append, hl], hp, hn⟩
    · rw [searchExt, htm] at h
      dsimp only at h
      obtain rfl : cap' = cap := Option.some.inj h
      rcases tryMatchAt_sound _ _ htm with ⟨rest, hl, hfc⟩
      rcases findClose_sound _ _ hfc with ⟨b, hb, hp, hn⟩
      exact ⟨[], b, by rw [hl, hb]; rfl, hp, hn⟩

/-- Completeness of the regex search: any `(*.ext)` token in the input
makes the search succeed. -/
theorem searchExt_complete : ∀ (a ext b : List Char), ')' ∉ ext → '\n' ∉ ext →
    (searchExt (a ++ '(' :: '*' :: '.' :: (ext ++ ')' :: b))).isSome = true := by
  intro a ext b hp hn
  induction a with
  | nil =>
    have hf := findClose_app_isSome ext b hp hn
    rcases hfc : findClose (ext ++ ')' :: b) with _ | cap
    · rw [hfc] at hf; cases hf
    · have htm : tryMatchAt ('(' :: '*' :: '.' :: (ext ++ ')' :: b)) = some cap := by
        dsimp only [tryMatchAt]
        rw [if_pos ⟨rfl, rfl, rfl⟩, hfc]
      rw [List.nil_append, searchExt, htm]
      rfl
  | cons c a' ih =>
    rcases htm : tryMatchAt (c :: (a' ++ '(' :: '*' :: '.' :: (ext ++ ')' :: b)))
        with _ | cap
    · rw [List.cons_append, searchExt, htm]
      exact ih
    · rw [List.cons_append, searchExt, htm]
      rfl

/-- The extractor succeeds exactly when the underlying regex search
does. -/
theorem extract_isSome_eq_searchExt (s : String) :
    (extract_extension_from_filter s).isSome = (searchExt s.data).isSome := by
  rw [extract_extension_from_filter]
  cases searchExt s.data <;> rfl

/-- C9: the extractor maps `"PNG (*.png)"` to `".png"`, and in general
it returns a value precisely when the filter string contains a
parenthesized `*.xxx` token — in particular it returns `None` when no
such token is present. -/
theorem extract_extension_spec :
    extract_extension_from_filter "PNG (*.png)" = some ".png"
    ∧ ∀ s : String,
        HasExtToken s.data ↔ (extract_extension_from_filter s).isSome = true := by
  refine ⟨by decide, fun s => ?_⟩
  rw [extract_isSome_eq_searchExt]
  constructor
  · rintro ⟨a, ext, b, hdecomp, hp, hn⟩
    rw [hdecomp]
    exact searchExt_complete a ext b hp hn
  · intro h
    rcases Option.isSome_iff_exists.mp h with ⟨cap, hcap⟩
    rcases searchExt_sound _ _ hcap with ⟨a, b, hl, hpp, hnn⟩
    exact ⟨a, cap, b, hl, hpp, hnn⟩

/-- Witness for C9: a concrete filter string with a token, through the
general direction of the theorem. -/
theorem extract_extension_spec_witness :
    (extract_extension_from_filter "JPEG (*.jpg)").isSome = true :=
  (extract_extension_spec.2 "JPEG (*.jpg)").mp
    ⟨"JPEG ".data, "jpg".data, [], by decide, by decide, by decide⟩

/-- C10: on the all-files filter `"Все файлы (*.*)"` the lazy pattern
captures the second asterisk, so the extractor returns `".*"` rather
than `None`. -/
theorem extract_extension_wildcard_star :
    extract_extension_from_filter "Все файлы (*.*)" = some ".*" := by
  decide

end ImageConv
